import Mathlib

set_option maxRecDepth 10000

/-!
Verification of the x-poster repository's core components against its
natural-language specification: the time-based rotation selector
(src/services/rotation.ts), the tweet-length validator
(src/utils/content-processor.ts) and the OAuth 1.0a signing client
(TwitterClient).  Each definition is a shallow embedding of the
corresponding TypeScript function; machine arithmetic is modelled with
Nat/Int (JS numbers stay well inside the exact-integer range here).
-/

namespace XPoster

/-- Calendar instant as seen through the JS `Date` UTC accessors used by the
rotation service: `day` abstracts the whole date part (`getUTCDate` and above),
`hour`/`minute`/`second`/`ms` are `getUTCHours/Minutes/Seconds/Milliseconds`. -/
structure DateTime where
  day : Int
  hour : Nat
  minute : Nat
  second : Nat
  ms : Nat
deriving DecidableEq

/-- Invariant of a real JS `Date`: the UTC accessors return values in their
calendar ranges. -/
def validDate (d : DateTime) : Prop :=
  d.hour < 24 ∧ d.minute < 60 ∧ d.second < 60 ∧ d.ms < 1000

instance (d : DateTime) : Decidable (validDate d) := by
  unfold validDate
  infer_instance

/-- Index computed by `RotationService.getCurrentSource` (rotation.ts:33-34):
`Math.floor(hour / this.intervalHours) % this.sources.length`.  Data sources
are modelled by their `getName()` string, the only observable the rotation
claims use. -/
def currentIndex (sources : List String) (intervalHours : Nat) (d : DateTime) : Nat :=
  d.hour / intervalHours % sources.length

/-- Embedding of `RotationService.getCurrentSource` (rotation.ts:32-36):
`this.sources[index]`, with JS out-of-range indexing modelled by a default. -/
def getCurrentSource (sources : List String) (intervalHours : Nat) (d : DateTime) : String :=
  sources.getD (currentIndex sources intervalHours d) ""

/-- Index computed by `RotationService.getNextSource` (rotation.ts:41-47):
`(currentIndex + 1) % this.sources.length`. -/
def nextIndex (sources : List String) (intervalHours : Nat) (d : DateTime) : Nat :=
  (currentIndex sources intervalHours d + 1) % sources.length

/-- Embedding of `RotationService.getNextSource` (rotation.ts:41-47). -/
def getNextSource (sources : List String) (intervalHours : Nat) (d : DateTime) : String :=
  sources.getD (nextIndex sources intervalHours d) ""

/-- Shift a date by `k` whole hours (used to state the spec's
`currentIndex(now + intervalHours hours)` property). -/
def addHours (d : DateTime) (k : Nat) : DateTime :=
  ⟨d.day + ((d.hour + k) / 24 : Nat), (d.hour + k) % 24, d.minute, d.second, d.ms⟩

/-- Embedding of `RotationService.getTimeUntilNextRotation` (rotation.ts:52-76),
computed over Int exactly as the JS number arithmetic does (all values are
exact integers there). -/
def getTimeUntilNextRotation (intervalHours : Nat) (d : DateTime) : Int :=
  let hour := d.hour
  let currentInterval := hour / intervalHours
  let nextIntervalHour := (currentInterval + 1) * intervalHours
  let hoursUntilNext : Int :=
    if 24 ≤ nextIntervalHour then
      ((24 : Int) - (hour : Int)) + ((nextIntervalHour : Int) - 24)
    else
      (nextIntervalHour : Int) - (hour : Int)
  hoursUntilNext * 60 * 60 * 1000 - (d.minute : Int) * 60 * 1000 -
    (d.second : Int) * 1000 - (d.ms : Int)

/-- A date lying exactly on a rotation-interval boundary (hour a multiple of
the interval, nothing elapsed within the hour). -/
def onBoundary (intervalHours : Nat) (d : DateTime) : Prop :=
  d.hour % intervalHours = 0 ∧ d.minute = 0 ∧ d.second = 0 ∧ d.ms = 0

instance (intervalHours : Nat) (d : DateTime) : Decidable (onBoundary intervalHours d) := by
  unfold onBoundary
  infer_instance

/-- Embedding of the `RotationService` constructor (rotation.ts:21-27): it
throws exactly when `sources.length === 0` and performs no check at all on
`intervalHours`, which is therefore modelled as an arbitrary Int. -/
def mkRotationService (sources : List String) (intervalHours : Int) :
    Except String (List String × Int) :=
  if sources.length = 0 then
    Except.error "At least one data source must be registered"
  else
    Except.ok (sources, intervalHours)

/-- Character class `\s` of JS regexes (also the set stripped by
`String.prototype.trim`): ASCII whitespace, NBSP, the Unicode space
separators, the line separators and the BOM. -/
def isJsSpace (c : Char) : Bool :=
  let n := c.toNat
  n == 9 || n == 10 || n == 11 || n == 12 || n == 13 || n == 32 ||
  n == 0xa0 || n == 0x1680 || (0x2000 ≤ n && n ≤ 0x200a) ||
  n == 0x2028 || n == 0x2029 || n == 0x202f || n == 0x205f ||
  n == 0x3000 || n == 0xfeff

/-- Length of a string in UTF-16 code units, the unit of JS `String.length`
used by `validateTweetLength`.  Strings are handled as their character
(code-point) lists throughout the content-processor model. -/
def utf16Len (cs : List Char) : Nat :=
  (cs.map (fun c => if c.toNat < 0x10000 then 1 else 2)).sum

/-- Embedding of JS `String.prototype.trim`. -/
def jsTrim (cs : List Char) : List Char :=
  ((cs.dropWhile isJsSpace).reverse.dropWhile isJsSpace).reverse

/-- Length of the scheme part matched by the regex `https?:\/\/` at the head
of the input, if it matches there (with the backtracking of the optional `s`:
`https://` is tried first, then `http://`). -/
def urlSchemeLen (cs : List Char) : Option Nat :=
  match cs with
  | 'h' :: 't' :: 't' :: 'p' :: rest =>
    match rest with
    | 's' :: ':' :: '/' :: '/' :: _ => some 8
    | ':' :: '/' :: '/' :: _ => some 7
    | _ => none
  | _ => none

/-- One attempt of the regex `https?:\/\/[^\s]+` at the current position:
the scheme followed by a maximal non-empty run of non-whitespace characters.
Returns the matched characters and the rest of the input after the match. -/
def tryMatchUrl (cs : List Char) : Option (List Char × List Char) :=
  match urlSchemeLen cs with
  | none => none
  | some p =>
    let run := (cs.drop p).takeWhile (fun c => !isJsSpace c)
    if run.length = 0 then none
    else some (cs.take p ++ run, (cs.drop p).drop run.length)

/-- Scanner behind `text.match(/https?:\/\/[^\s]+/g)`: leftmost,
non-overlapping matches, advancing one character when no match starts at the
current position.  The fuel argument (instantiated with the input length,
which bounds the number of scan steps) only serves termination. -/
def scanUrlsAux : Nat → List Char → List (List Char)
  | 0, _ => []
  | _ + 1, [] => []
  | fuel + 1, c :: rest =>
    match tryMatchUrl (c :: rest) with
    | some (url, rest') => url :: scanUrlsAux fuel rest'
    | none => scanUrlsAux fuel rest

/-- All matches of `https?:\/\/[^\s]+` in the input, in order
(content-processor.ts:75-76). -/
def scanUrls (cs : List Char) : List (List Char) :=
  scanUrlsAux cs.length cs

/-- Embedding of the effective-length computation of
`ContentProcessor.validateTweetLength` (content-processor.ts:78-81): start
from `text.length` and, for each URL match, subtract its length and add 23. -/
def effectiveLength (cs : List Char) : Int :=
  (scanUrls cs).foldl (fun acc url => acc - (utf16Len url : Int) + 23) (utf16Len cs : Int)

/-- Embedding of `ContentProcessor.validateTweetLength`
(content-processor.ts:73-84). -/
def validateTweetLength (cs : List Char) (maxLength : Int) : Bool :=
  decide (effectiveLength cs ≤ maxLength)

/-- Validation performed by `TwitterClient.postTweet` before any network call
(part_003:20-30): rejects when the text is falsy or trims to nothing, or when
`validateTweetLength` fails at the default limit 280. -/
def postTweetRejected (text : List Char) : Bool :=
  text.isEmpty || (jsTrim text).isEmpty || !validateTweetLength text 280

/-- Concrete 300-character text from the spec's test scenario: 259 plain
characters, a space, and a 40-character URL. -/
def exampleTweet : List Char :=
  List.replicate 259 'a' ++ ' ' :: ("http://".data ++ List.replicate 33 'x')

/-- Uppercase hexadecimal digit for `n < 16`. -/
def hexDigitU (n : Nat) : Char :=
  if n < 10 then Char.ofNat (48 + n) else Char.ofNat (55 + n)

/-- Percent-escape of one byte: `%` followed by two uppercase hex digits. -/
def pctByte (b : Nat) : List Char :=
  ['%', hexDigitU (b / 16), hexDigitU (b % 16)]

/-- UTF-8 bytes of one character, as natural numbers (each below 256). -/
def utf8Bytes (c : Char) : List Nat :=
  let n := c.toNat
  if n < 0x80 then [n]
  else if n < 0x800 then [0xc0 + n / 64, 0x80 + n % 64]
  else if n < 0x10000 then [0xe0 + n / 4096, 0x80 + n / 64 % 64, 0x80 + n % 64]
  else [0xf0 + n / 262144, 0x80 + n / 4096 % 64, 0x80 + n / 64 % 64, 0x80 + n % 64]

/-- Character set left unescaped by JS `encodeURIComponent`, by code point:
ASCII alphanumerics and the marks `- _ . ! ~ * ' ( )` (45, 95, 46, 33, 126,
42, 39, 40, 41). -/
def isUriUnescaped (c : Char) : Bool :=
  (65 ≤ c.toNat && c.toNat ≤ 90) || (97 ≤ c.toNat && c.toNat ≤ 122) ||
  (48 ≤ c.toNat && c.toNat ≤ 57) ||
  c.toNat == 45 || c.toNat == 95 || c.toNat == 46 || c.toNat == 33 ||
  c.toNat == 126 || c.toNat == 42 || c.toNat == 39 || c.toNat == 40 || c.toNat == 41

/-- Embedding of JS `encodeURIComponent`, the platform primitive called by
`TwitterClient.percentEncode`: unescaped characters pass through, every other
character has each of its UTF-8 bytes escaped as `%XX` with uppercase hex. -/
def encodeURIComponentJS (cs : List Char) : List Char :=
  cs.flatMap (fun c => if isUriUnescaped c then [c] else (utf8Bytes c).flatMap pctByte)

/-- Character class of the regex in `percentEncode`'s global replace
(part_003:184-187), by code point: `!`(33) `'`(39) `(`(40) `)`(41) `*`(42). -/
def oauthExtra (c : Char) : Bool :=
  c.toNat == 33 || c.toNat == 39 || c.toNat == 40 || c.toNat == 41 || c.toNat == 42

/-- The global replace of `percentEncode`: each character of the class above
becomes `%` followed by its code point in uppercase hex, everything else is
kept. -/
def oauthReplace (cs : List Char) : List Char :=
  cs.flatMap (fun c => if oauthExtra c then pctByte c.toNat else [c])

/-- Embedding of `TwitterClient.percentEncode` (part_003:183-188):
`encodeURIComponent` followed by the extra OAuth replace. -/
def percentEncode (s : String) : String :=
  ⟨oauthReplace (encodeURIComponentJS s.data)⟩

/-- RFC 3986 unreserved characters as named by the spec, by code point:
ASCII alphanumerics and `- . _ ~` (45, 46, 95, 126). -/
def isUnreserved (c : Char) : Bool :=
  (65 ≤ c.toNat && c.toNat ≤ 90) || (97 ≤ c.toNat && c.toNat ≤ 122) ||
  (48 ≤ c.toNat && c.toNat ≤ 57) ||
  c.toNat == 45 || c.toNat == 46 || c.toNat == 95 || c.toNat == 126

/-- Encoder written from the spec's words, for the refinement claim C2:
unreserved characters pass through unchanged and every other byte of the
UTF-8 encoding is escaped as `%XX` with uppercase hex (so the OAuth extra
set `! ' ( ) *` is escaped like any other reserved byte). -/
def specPercentEncode (s : String) : String :=
  ⟨s.data.flatMap (fun c => if isUnreserved c then [c] else (utf8Bytes c).flatMap pctByte)⟩

/-- Lexicographic comparison of character lists by code point. -/
def charListLe : List Char → List Char → Bool
  | [], _ => true
  | _ :: _, [] => false
  | a :: as, b :: bs =>
    if a.toNat < b.toNat then true
    else if b.toNat < a.toNat then false
    else charListLe as bs

/-- Comparator used by `generateSignature`'s sort (part_003:131),
`([a], [b]) => a.localeCompare(b)`, modelled on the actual domain it is
applied to: the six fixed OAuth parameter keys.  Those keys are lowercase
ASCII letters and underscores and every pairwise comparison is decided at a
lowercase-letter position, where every locale's collation agrees with code
point (hence byte-wise) order, which is what this embedding uses. -/
def localeCompareLe (a b : String) : Bool :=
  charListLe a.data b.data

/-- Byte-wise lexicographic order named by the spec (claim C1).  All
percent-encoded strings are pure ASCII, so code-point order coincides with
byte order on them. -/
def byteLexLe (a b : String) : Bool :=
  charListLe a.data b.data

/-- Stable insertion into a sorted list. -/
def insertSorted {α : Type} (le : α → α → Bool) (x : α) : List α → List α
  | [] => [x]
  | y :: ys => if le x y then x :: y :: ys else y :: insertSorted le x ys

/-- Stable comparison sort, modelling JS `Array.prototype.sort` (specified
stable; on the distinct keys sorted here any comparison sort agrees). -/
def insertionSort {α : Type} (le : α → α → Bool) : List α → List α
  | [] => []
  | x :: xs => insertSorted le x (insertionSort le xs)

/-- JS `Array.prototype.join` with separator `&`. -/
def joinAmp : List String → String
  | [] => ""
  | [x] => x
  | x :: xs => x ++ "&" ++ joinAmp xs

/-- JS `Array.prototype.join` with separator `, `. -/
def joinCommaSpace : List String → String
  | [] => ""
  | [x] => x
  | x :: xs => x ++ ", " ++ joinCommaSpace xs

/-- The OAuth parameter object built by `generateOAuthHeader`
(part_003:94-101), in its insertion order; the six values are taken as inputs
(the call site fixes `oauth_signature_method` to "HMAC-SHA1" and
`oauth_version` to "1.0"). -/
def oauthParamsList (consumerKey token signatureMethod timestamp nonce version : String) :
    List (String × String) :=
  [("oauth_consumer_key", consumerKey),
   ("oauth_token", token),
   ("oauth_signature_method", signatureMethod),
   ("oauth_timestamp", timestamp),
   ("oauth_nonce", nonce),
   ("oauth_version", version)]

/-- Parameter string of `generateSignature` (part_003:130-136): sort the raw
key-value pairs by key with `localeCompare`, then percent-encode each key and
value, render as `key=value` and join with `&`. -/
def sortedParamString (params : List (String × String)) : String :=
  joinAmp ((insertionSort (fun a b => localeCompareLe a.1 b.1) params).map
    (fun kv => percentEncode kv.1 ++ "=" ++ percentEncode kv.2))

/-- Signature base string of `generateSignature` (part_003:138-142):
uppercased method, percent-encoded URL and percent-encoded parameter string,
joined with `&`. -/
def signatureBaseString (method url : String) (params : List (String × String)) : String :=
  joinAmp [method.toUpper, percentEncode url, percentEncode (sortedParamString params)]

/-- Parameter string as the spec words it (claim C1): percent-encode each
key-value pair first, sort the encoded pairs by encoded key in byte-wise
ascending order, render as `key=value` and join with `&`. -/
def specSortedParamString (params : List (String × String)) : String :=
  joinAmp ((insertionSort (fun a b => byteLexLe a.1 b.1)
      (params.map (fun kv => (percentEncode kv.1, percentEncode kv.2)))).map
    (fun kv => kv.1 ++ "=" ++ kv.2))

/-- UTF-8 bytes of a string (the JS `TextEncoder` used at part_003:151-153). -/
def strUtf8 (s : String) : List Nat :=
  s.data.flatMap utf8Bytes

/-- Signing key of `generateSignature` (part_003:145-148): percent-encoded
consumer secret and token secret joined with `&`, with no validity check. -/
def signingKey (consumerSecret tokenSecret : String) : String :=
  joinAmp [percentEncode consumerSecret, percentEncode tokenSecret]

/-- Standard base64 alphabet. -/
def base64Chars : List Char :=
  "ABCDEFGHIJKLMNOPQRSTUVWXYZabcdefghijklmnopqrstuvwxyz0123456789+/".data

/-- Character of the base64 alphabet at index `n < 64`. -/
def b64Char (n : Nat) : Char :=
  base64Chars.getD n ' '

/-- Base64 encoding with padding of a byte list: model of the `btoa` call in
`arrayBufferToBase64` (part_003:193-200). -/
def base64Encode : List Nat → List Char
  | b1 :: b2 :: b3 :: rest =>
    b64Char (b1 / 4) :: b64Char (b1 % 4 * 16 + b2 / 16) ::
      b64Char (b2 % 16 * 4 + b3 / 64) :: b64Char (b3 % 64) :: base64Encode rest
  | [b1, b2] =>
    [b64Char (b1 / 4), b64Char (b1 % 4 * 16 + b2 / 16), b64Char (b2 % 16 * 4), '=']
  | [b1] => [b64Char (b1 / 4), b64Char (b1 % 4 * 16), '=', '=']
  | [] => []

/-- Model of `TwitterClient.arrayBufferToBase64` (part_003:193-200). -/
def arrayBufferToBase64 (bytes : List Nat) : String :=
  ⟨base64Encode bytes⟩

/-- Embedding of `generateSignature` (part_003:124-167).  The HMAC-SHA1
primitive behind `crypto.subtle.sign` is an external platform call,
abstracted as a function from key bytes and message bytes to digest bytes. -/
def generateSignature (hmacSha1 : List Nat → List Nat → List Nat)
    (consumerSecret tokenSecret method url : String)
    (params : List (String × String)) : String :=
  arrayBufferToBase64
    (hmacSha1 (strUtf8 (signingKey consumerSecret tokenSecret))
      (strUtf8 (signatureBaseString method url params)))

/-- Embedding of `generateOAuthHeader` (part_003:85-119) at a given timestamp
and nonce (both freshly generated there): build the six OAuth parameters,
sign them, append `oauth_signature`, and render the `Authorization` value.
The `body` argument of the source function is never used in the signature,
and no credential is ever checked for presence or non-emptiness. -/
def generateOAuthHeader (hmacSha1 : List Nat → List Nat → List Nat)
    (apiKey apiSecret accessToken accessSecret : String)
    (timestamp nonce method url : String) : String :=
  let oauthParams := oauthParamsList apiKey accessToken "HMAC-SHA1" timestamp nonce "1.0"
  let signature := generateSignature hmacSha1 apiSecret accessSecret method url oauthParams
  let authParams := oauthParams ++ [("oauth_signature", signature)]
  "OAuth " ++ joinCommaSpace (authParams.map
    (fun kv => kv.1 ++ "=\"" ++ percentEncode kv.2 ++ "\""))

/-- Fetch outcome as observed by `testConnection`: either a response, of
which only `ok` is consulted, or a thrown error. -/
structure HttpResponse where
  ok : Bool
deriving DecidableEq

/-- Fixed probe endpoint of `testConnection` (part_003:208). -/
def testConnectionUrl : String :=
  "https://api.twitter.com/2/users/me"

/-- Authorization header sent by `testConnection` (part_003:209): a signed
GET against the fixed probe endpoint, with no body, so only the six OAuth
parameters enter the signature. -/
def testConnectionAuthHeader (hmacSha1 : List Nat → List Nat → List Nat)
    (apiKey apiSecret accessToken accessSecret timestamp nonce : String) : String :=
  generateOAuthHeader hmacSha1 apiKey apiSecret accessToken accessSecret timestamp nonce
    "GET" testConnectionUrl

/-- Result of `testConnection` (part_003:205-223) as a function of the fetch
outcome: `response.ok` on success, `false` on any thrown error (the sole
place where errors are swallowed). -/
def testConnection (outcome : Except String HttpResponse) : Bool :=
  match outcome with
  | Except.ok r => r.ok
  | Except.error _ => false

/-- Counter values taken by the loop of `getSchedule`,
`for (let i = 0; i < 24; i += this.intervalHours)` (rotation.ts:85).  The
fuel argument only serves termination; 24 iterations always suffice for a
positive step (for step 0 the JS loop would never terminate, a case outside
every claim). -/
def loopCounter (intervalHours : Nat) : Nat → Nat → List Nat
  | 0, _ => []
  | fuel + 1, i =>
    if i < 24 then i :: loopCounter intervalHours fuel (i + intervalHours) else []

/-- Entry pushed by the loop body of `getSchedule` (rotation.ts:86-99) for
counter value `i`: hour `(startHour + i) % 24`, the index formula at that
hour, and a timestamp on `now`'s date with that hour and zeroed
minutes/seconds/milliseconds, the date rolled one day forward when the
computed hour is below the start hour. -/
def scheduleEntry (sources : List String) (intervalHours : Nat) (d : DateTime) (i : Nat) :
    DateTime × String :=
  let hour := (d.hour + i) % 24
  let index := hour / intervalHours % sources.length
  (⟨d.day + (if hour < d.hour then 1 else 0), hour, 0, 0, 0⟩, sources.getD index "")

/-- Embedding of `RotationService.getSchedule` (rotation.ts:81-103). -/
def getSchedule (sources : List String) (intervalHours : Nat) (d : DateTime) :
    List (DateTime × String) :=
  (loopCounter intervalHours 24 0).map (scheduleEntry sources intervalHours d)

end XPoster

namespace XPoster

/-- Helper: the two branches of `getTimeUntilNextRotation` compute the same
value, namely `intervalHours - hour % intervalHours` hours. -/
theorem getTimeUntilNextRotation_eq (intervalHours : Nat) (hpos : 0 < intervalHours)
    (d : DateTime) :
    getTimeUntilNextRotation intervalHours d =
      ((intervalHours : Int) - (d.hour % intervalHours : Nat)) * 3600000 -
        (d.minute : Int) * 60000 - (d.second : Int) * 1000 - (d.ms : Int) := by
  unfold getTimeUntilNextRotation
  dsimp only
  have hdm : intervalHours * (d.hour / intervalHours) + d.hour % intervalHours = d.hour :=
    Nat.div_add_mod d.hour intervalHours
  have hlt : d.hour % intervalHours < intervalHours := Nat.mod_lt _ hpos
  set q := d.hour / intervalHours with hq
  set r := d.hour % intervalHours with hr
  have hmul : (q + 1) * intervalHours = intervalHours * q + intervalHours := by ring
  rw [hmul]
  split <;> push_cast <;> omega

/-- C3: for every non-empty source list, every positive interval and every
valid time, the current index is `hour / intervalHours % sourceCount`, lies
strictly below the source count, and `getCurrentSource` returns an element of
the list (never an out-of-range access). -/
theorem claim3_current_index (sources : List String) (intervalHours : Nat) (d : DateTime)
    (hs : sources ≠ []) (hpos : 0 < intervalHours) (hv : validDate d) :
    currentIndex sources intervalHours d = d.hour / intervalHours % sources.length ∧
    currentIndex sources intervalHours d < sources.length ∧
    getCurrentSource sources intervalHours d ∈ sources := by
  have hlen : 0 < sources.length := List.length_pos.mpr hs
  have hidx : currentIndex sources intervalHours d < sources.length :=
    Nat.mod_lt _ hlen
  refine ⟨rfl, hidx, ?_⟩
  unfold getCurrentSource
  rw [List.getD_eq_getElem sources "" hidx]
  exact List.getElem_mem hidx

/-- Witness for C3 at a concrete input. -/
theorem claim3_current_index_witness :
    (["HackerNews", "TechCrunch", "YahooFinance"] : List String) ≠ [] ∧
    0 < 4 ∧ validDate ⟨0, 2, 0, 0, 0⟩ ∧
    (currentIndex ["HackerNews", "TechCrunch", "YahooFinance"] 4 ⟨0, 2, 0, 0, 0⟩ =
        2 / 4 % 3 ∧
      currentIndex ["HackerNews", "TechCrunch", "YahooFinance"] 4 ⟨0, 2, 0, 0, 0⟩ < 3 ∧
      getCurrentSource ["HackerNews", "TechCrunch", "YahooFinance"] 4 ⟨0, 2, 0, 0, 0⟩ ∈
        (["HackerNews", "TechCrunch", "YahooFinance"] : List String)) :=
  ⟨by decide, by decide, by decide,
    claim3_current_index ["HackerNews", "TechCrunch", "YahooFinance"] 4 ⟨0, 2, 0, 0, 0⟩
      (by decide) (by decide) (by decide)⟩

/-- C5 counterexample: exactly at an interval boundary (00:00:00.000 with a
4-hour interval) the countdown equals `intervalHours * 3600000`, so it is not
strictly less than it as the claim states. -/
theorem claim5_counterexample :
    validDate ⟨0, 0, 0, 0, 0⟩ ∧
    ¬ getTimeUntilNextRotation 4 ⟨0, 0, 0, 0, 0⟩ < (4 : Int) * 3600000 := by
  constructor
  · decide
  · decide

/-- C5 (amended): for every positive interval and valid time the countdown is
non-negative and at most `intervalHours * 3600000`, with the strict upper
bound holding whenever `now` is not exactly on an interval boundary. -/
theorem claim5_countdown_bounds (intervalHours : Nat) (d : DateTime)
    (hpos : 0 < intervalHours) (hv : validDate d) :
    0 ≤ getTimeUntilNextRotation intervalHours d ∧
    getTimeUntilNextRotation intervalHours d ≤ (intervalHours : Int) * 3600000 ∧
    (¬ onBoundary intervalHours d →
      getTimeUntilNextRotation intervalHours d < (intervalHours : Int) * 3600000) := by
  obtain ⟨h1, h2, h3, h4⟩ := hv
  rw [getTimeUntilNextRotation_eq intervalHours hpos d]
  have hlt : d.hour % intervalHours < intervalHours := Nat.mod_lt _ hpos
  unfold onBoundary
  set r := d.hour % intervalHours with hr
  refine ⟨?_, ?_, ?_⟩
  · have : (1 : Int) ≤ (intervalHours : Int) - (r : Int) := by omega
    nlinarith [this]
  · have : (intervalHours : Int) - (r : Int) ≤ (intervalHours : Int) := by omega
    nlinarith [this]
  · intro hnb
    push_neg at hnb
    by_cases hrz : r = 0
    · have hne := hnb hrz
      have : (intervalHours : Int) - (r : Int) = (intervalHours : Int) := by omega
      rw [this]
      omega
    · have : (intervalHours : Int) - (r : Int) ≤ (intervalHours : Int) - 1 := by omega
      nlinarith [this]

/-- Witness for C5 (amended) at a concrete off-boundary input. -/
theorem claim5_countdown_bounds_witness :
    0 < 4 ∧ validDate ⟨0, 2, 30, 0, 0⟩ ∧
    (0 ≤ getTimeUntilNextRotation 4 ⟨0, 2, 30, 0, 0⟩ ∧
      getTimeUntilNextRotation 4 ⟨0, 2, 30, 0, 0⟩ ≤ (4 : Int) * 3600000 ∧
      (¬ onBoundary 4 ⟨0, 2, 30, 0, 0⟩ →
        getTimeUntilNextRotation 4 ⟨0, 2, 30, 0, 0⟩ < (4 : Int) * 3600000)) :=
  ⟨by decide, by decide, claim5_countdown_bounds 4 ⟨0, 2, 30, 0, 0⟩ (by decide) (by decide)⟩

/-- C7 counterexample: with 3 sources, a 5-hour interval and `now` = 23:30
(not on a boundary), `nextIndex(now)` is 2 but `currentIndex(now + 5h)` is 0:
the identity fails when the hour addition wraps past UTC midnight. -/
theorem claim7_counterexample :
    ¬ onBoundary 5 ⟨0, 23, 30, 0, 0⟩ ∧
    nextIndex ["A", "B", "C"] 5 ⟨0, 23, 30, 0, 0⟩ ≠
      currentIndex ["A", "B", "C"] 5 (addHours ⟨0, 23, 30, 0, 0⟩ 5) := by
  constructor
  · decide
  · decide

/-- C7 (amended): `nextIndex` is `(currentIndex + 1) mod sourceCount`, and it
equals `currentIndex(now + intervalHours hours)` whenever the shifted time
stays within the same UTC day (`hour + intervalHours < 24`); the identity can
fail when the addition wraps past midnight. -/
theorem claim7_next_index (sources : List String) (intervalHours : Nat) (d : DateTime)
    (hs : sources ≠ []) (hpos : 0 < intervalHours) (hnw : d.hour + intervalHours < 24) :
    nextIndex sources intervalHours d =
      (currentIndex sources intervalHours d + 1) % sources.length ∧
    nextIndex sources intervalHours d =
      currentIndex sources intervalHours (addHours d intervalHours) := by
  refine ⟨rfl, ?_⟩
  unfold nextIndex currentIndex addHours
  simp only
  rw [Nat.mod_eq_of_lt hnw, Nat.add_div_right _ hpos, Nat.mod_add_mod]

/-- Witness for C7 (amended) at a concrete input. -/
theorem claim7_next_index_witness :
    (["A", "B", "C"] : List String) ≠ [] ∧ 0 < 5 ∧ (14 : Nat) + 5 < 24 ∧
    (nextIndex ["A", "B", "C"] 5 ⟨0, 14, 30, 0, 0⟩ =
        (currentIndex ["A", "B", "C"] 5 ⟨0, 14, 30, 0, 0⟩ + 1) % 3 ∧
      nextIndex ["A", "B", "C"] 5 ⟨0, 14, 30, 0, 0⟩ =
        currentIndex ["A", "B", "C"] 5 (addHours ⟨0, 14, 30, 0, 0⟩ 5)) :=
  ⟨by decide, by decide, by decide,
    claim7_next_index ["A", "B", "C"] 5 ⟨0, 14, 30, 0, 0⟩ (by decide) (by decide) (by decide)⟩

/-- C10: constructing a `RotationService` fails exactly when the source list
is empty; for a non-empty list it succeeds for every `intervalHours`,
including zero and negative values, which are never checked. -/
theorem claim10_constructor (sources : List String) (intervalHours : Int) :
    mkRotationService sources intervalHours =
      if sources = [] then
        Except.error "At least one data source must be registered"
      else
        Except.ok (sources, intervalHours) := by
  unfold mkRotationService
  by_cases h : sources = []
  · subst h
    simp
  · rw [if_neg h, if_neg (by simpa using h)]

/-- Helper: the URL-adjustment fold equals the initial value minus the sum of
the per-URL corrections. -/
theorem effective_fold_eq (l : List (List Char)) :
    ∀ a : Int, l.foldl (fun acc url => acc - (utf16Len url : Int) + 23) a =
      a - (l.map (fun url => (utf16Len url : Int) - 23)).sum := by
  induction l with
  | nil => intro a; simp
  | cons u us ih =>
    intro a
    rw [List.foldl_cons, ih, List.map_cons, List.sum_cons]
    ring

/-- C4: `postTweet` rejects (with a thrown error, before any network call)
exactly when the text trims to nothing or its effective length exceeds 280,
where the effective length replaces each URL match's length by the fixed
weight 23; the spec's 300-character example with one 40-character URL has
effective length 283 and is rejected. -/
theorem claim4_post_validation :
    (∀ text : List Char,
      postTweetRejected text = true ↔ (jsTrim text = [] ∨ 280 < effectiveLength text)) ∧
    (∀ text : List Char,
      effectiveLength text =
        (utf16Len text : Int) - ((scanUrls text).map (fun url => (utf16Len url : Int) - 23)).sum) ∧
    utf16Len exampleTweet = 300 ∧
    (scanUrls exampleTweet).map utf16Len = [40] ∧
    effectiveLength exampleTweet = 283 ∧
    postTweetRejected exampleTweet = true := by
  refine ⟨?_, ?_, by decide, by decide, by decide, by decide⟩
  · intro text
    unfold postTweetRejected validateTweetLength
    cases text with
    | nil => decide
    | cons c cs =>
      simp only [List.isEmpty_cons, Bool.false_or, Bool.or_eq_true, List.isEmpty_iff,
        Bool.not_eq_true', decide_eq_false_iff_not, not_le]
  · intro text
    exact effective_fold_eq (scanUrls text) (utf16Len text : Int)

/-- Helper: every character's code point is below 0x110000. -/
theorem char_toNat_lt (c : Char) : c.toNat < 1114112 := by
  have h : Nat.isValidChar c.toNat := c.valid
  rcases h with h | ⟨_, h⟩
  · exact Nat.lt_trans h (by norm_num)
  · exact h

/-- Helper: UTF-8 bytes are bytes. -/
theorem utf8Bytes_lt (c : Char) : ∀ b ∈ utf8Bytes c, b < 256 := by
  intro b hb
  have hc : c.toNat < 1114112 := char_toNat_lt c
  unfold utf8Bytes at hb
  dsimp only at hb
  split at hb
  · simp only [List.mem_singleton] at hb
    omega
  · split at hb
    · simp only [List.mem_cons, List.not_mem_nil, or_false] at hb
      omega
    · split at hb
      · simp only [List.mem_cons, List.not_mem_nil, or_false] at hb
        omega
      · simp only [List.mem_cons, List.not_mem_nil, or_false] at hb
        omega

/-- Helper: the OAuth replace distributes over concatenation. -/
theorem oauthReplace_append (xs ys : List Char) :
    oauthReplace (xs ++ ys) = oauthReplace xs ++ oauthReplace ys :=
  List.flatMap_append xs ys _

/-- Helper: a percent-escaped byte contains only `%` and uppercase hex
digits, so the OAuth replace leaves it unchanged. -/
theorem oauthReplace_pctByte (b : Nat) (hb : b < 256) :
    oauthReplace (pctByte b) = pctByte b := by
  revert hb
  revert b
  decide

/-- Helper: the OAuth replace fixes any concatenation of percent-escaped
bytes. -/
theorem oauthReplace_pct_list (l : List Nat) (hl : ∀ b ∈ l, b < 256) :
    oauthReplace (l.flatMap pctByte) = l.flatMap pctByte := by
  induction l with
  | nil => rfl
  | cons b bs ih =>
    rw [List.flatMap_cons, oauthReplace_append,
      oauthReplace_pctByte b (hl b (List.mem_cons_self b bs)),
      ih (fun x hx => hl x (List.mem_cons_of_mem b hx))]

/-- Helper: unreserved characters are left alone by `encodeURIComponent` and
by the OAuth replace. -/
theorem unreserved_facts (c : Char) (h : isUnreserved c = true) :
    isUriUnescaped c = true ∧ oauthExtra c = false := by
  simp only [isUnreserved, isUriUnescaped, oauthExtra, Bool.or_eq_true, Bool.and_eq_true,
    decide_eq_true_eq, beq_iff_eq, Bool.or_eq_false_iff, beq_eq_false_iff_ne, ne_eq] at h ⊢
  refine ⟨?_, ?_⟩ <;> omega

/-- Helper: the OAuth extra characters `! ' ( ) *` are ASCII, unescaped by
`encodeURIComponent` and not unreserved. -/
theorem extra_facts (c : Char) (h : oauthExtra c = true) :
    isUriUnescaped c = true ∧ isUnreserved c = false ∧ c.toNat < 128 := by
  simp only [isUnreserved, isUriUnescaped, oauthExtra, Bool.or_eq_true, Bool.and_eq_true,
    decide_eq_true_eq, beq_iff_eq, Bool.or_eq_false_iff, Bool.and_eq_false_iff,
    beq_eq_false_iff_ne, ne_eq, decide_eq_false_iff_not, not_le] at h ⊢
  refine ⟨?_, ?_, ?_⟩ <;> omega

/-- Helper: the `encodeURIComponent` unescaped set is exactly the unreserved
set together with the OAuth extra set. -/
theorem unescaped_split (c : Char) (h : isUriUnescaped c = true) :
    isUnreserved c = true ∨ oauthExtra c = true := by
  simp only [isUnreserved, isUriUnescaped, oauthExtra, Bool.or_eq_true, Bool.and_eq_true,
    decide_eq_true_eq, beq_iff_eq] at h ⊢
  omega

/-- Helper: ASCII characters are a single UTF-8 byte. -/
theorem utf8Bytes_ascii (c : Char) (h : c.toNat < 128) : utf8Bytes c = [c.toNat] := by
  unfold utf8Bytes
  rw [if_pos h]

/-- Helper: the composite encoder agrees character by character with the
spec-side encoder. -/
theorem percentEncode_eq_spec (cs : List Char) :
    oauthReplace (encodeURIComponentJS cs) =
      cs.flatMap (fun c => if isUnreserved c then [c] else (utf8Bytes c).flatMap pctByte) := by
  induction cs with
  | nil => rfl
  | cons c cs ih =>
    unfold encodeURIComponentJS at ih ⊢
    rw [List.flatMap_cons, oauthReplace_append, ih, List.flatMap_cons]
    congr 1
    by_cases hu : isUnreserved c = true
    · obtain ⟨h1, h2⟩ := unreserved_facts c hu
      rw [if_pos hu, if_pos h1]
      unfold oauthReplace
      simp [h2]
    · rw [if_neg hu]
      by_cases he : oauthExtra c = true
      · obtain ⟨h1, _, h3⟩ := extra_facts c he
        rw [if_pos h1, utf8Bytes_ascii c h3]
        unfold oauthReplace
        simp [he]
      · by_cases hw : isUriUnescaped c = true
        · rcases unescaped_split c hw with h | h
          · exact absurd h hu
          · exact absurd h he
        · rw [if_neg hw]
          exact oauthReplace_pct_list (utf8Bytes c) (utf8Bytes_lt c)

/-- C2: the percent-encoder is total, passes unreserved characters through,
escapes every other byte as uppercase `%XX` and in particular escapes the
OAuth extra set `! ' ( ) *`; the two spec examples evaluate as stated. -/
theorem claim2_percent_encode :
    (∀ s : String, percentEncode s = specPercentEncode s) ∧
    percentEncode "abc123-._~" = "abc123-._~" ∧
    percentEncode "a!b\x27c(d)e*f" = "a%21b%27c%28d%29e%2Af" := by
  refine ⟨?_, by decide, by decide⟩
  intro s
  unfold percentEncode specPercentEncode
  exact congrArg String.mk (percentEncode_eq_spec s.data)

/-- Helper: unfolding of the three-element `&`-join. -/
theorem joinAmp_three (a b c : String) : joinAmp [a, b, c] = a ++ "&" ++ b ++ "&" ++ c := by
  simp [joinAmp, String.append_assoc]

/-- Helper: for the six OAuth parameter keys, sorting the raw pairs by key
and then encoding gives the same list as encoding first and sorting the
encoded pairs by encoded key (the keys are their own encodings and both
comparators order them identically). -/
theorem sortedParamString_eq_spec
    (consumerKey token signatureMethod timestamp nonce version : String) :
    sortedParamString (oauthParamsList consumerKey token signatureMethod timestamp nonce version) =
      specSortedParamString
        (oauthParamsList consumerKey token signatureMethod timestamp nonce version) := by
  rfl

/-- C1: for every assignment of values to the OAuth parameter keys, the
signature base string is the uppercased method, `&`, the percent-encoded URL,
`&`, and the percent-encoded parameter string obtained by sorting the
percent-encoded pairs by encoded key in byte-wise ascending order and joining
them as `key=value` with `&`. -/
theorem claim1_signature_base_string
    (method url consumerKey token signatureMethod timestamp nonce version : String) :
    signatureBaseString method url
        (oauthParamsList consumerKey token signatureMethod timestamp nonce version) =
      method.toUpper ++ "&" ++ percentEncode url ++ "&" ++
        percentEncode (specSortedParamString
          (oauthParamsList consumerKey token signatureMethod timestamp nonce version)) := by
  unfold signatureBaseString
  rw [sortedParamString_eq_spec, joinAmp_three]

/-- C8 counterexample: with every credential empty, signing does not fail:
`generateOAuthHeader` still produces a full authorization header (here with
the digest abstracted to the empty byte list), and the signing key used is
the string `&` built from the two empty secrets. -/
theorem claim8_counterexample :
    signingKey "" "" = "&" ∧
    generateOAuthHeader (fun _ _ => []) "" "" "" "" "0" "0" "POST"
        "https://api.twitter.com/2/tweets" =
      "OAuth oauth_consumer_key=\"\", oauth_token=\"\", oauth_signature_method=\"HMAC-SHA1\", oauth_timestamp=\"0\", oauth_nonce=\"0\", oauth_version=\"1.0\", oauth_signature=\"\"" := by
  constructor
  · rfl
  · rfl

/-- C8 (amended): the signer performs no credential check at all: for every
choice of credentials, empty ones included, `generateOAuthHeader` produces an
`OAuth ...` header, silently signing with the key built from the (possibly
empty) secrets. -/
theorem claim8_no_credential_check
    (hmacSha1 : List Nat → List Nat → List Nat)
    (apiKey apiSecret accessToken accessSecret timestamp nonce method url : String) :
    (∃ rest : String,
      generateOAuthHeader hmacSha1 apiKey apiSecret accessToken accessSecret
          timestamp nonce method url = "OAuth " ++ rest) ∧
    signingKey apiSecret accessSecret =
      percentEncode apiSecret ++ "&" ++ percentEncode accessSecret :=
  ⟨⟨_, rfl⟩, rfl⟩

/-- C9: `testConnection` signs a GET against the fixed who-am-I endpoint with
only the six OAuth parameters in the signature (no body parameters), returns
`response.ok` on a response, and converts every thrown error into `false`. -/
theorem claim9_test_connection :
    (∀ r : HttpResponse, testConnection (Except.ok r) = r.ok) ∧
    (∀ e : String, testConnection (Except.error e) = false) ∧
    testConnectionUrl = "https://api.twitter.com/2/users/me" ∧
    (∀ (hmacSha1 : List Nat → List Nat → List Nat)
      (apiKey apiSecret accessToken accessSecret timestamp nonce : String),
      testConnectionAuthHeader hmacSha1 apiKey apiSecret accessToken accessSecret
          timestamp nonce =
        generateOAuthHeader hmacSha1 apiKey apiSecret accessToken accessSecret
          timestamp nonce "GET" testConnectionUrl ∧
      (oauthParamsList apiKey accessToken "HMAC-SHA1" timestamp nonce "1.0").map Prod.fst =
        ["oauth_consumer_key", "oauth_token", "oauth_signature_method",
         "oauth_timestamp", "oauth_nonce", "oauth_version"]) :=
  ⟨fun _ => rfl, fun _ => rfl, rfl, fun _ _ _ _ _ _ _ => ⟨rfl, rfl⟩⟩

/-- Helper: peeling the first element off a range of multiples. -/
theorem range_map_mul_succ (n s i : Nat) :
    (List.range (n + 1)).map (fun k => i + k * s) =
      i :: (List.range n).map (fun k => (i + s) + k * s) := by
  rw [List.range_succ_eq_map, List.map_cons, List.map_map]
  congr 1
  · simp
  · apply List.map_congr_left
    intro a _
    simp only [Function.comp_apply, Nat.succ_mul]
    omega

/-- Helper: closed form of the schedule loop counter under sufficient fuel:
the multiples of the step starting at `i` that stay below 24. -/
theorem loopCounter_eq (intervalHours : Nat) (hpos : 0 < intervalHours) :
    ∀ fuel i, 24 ≤ i + fuel * intervalHours →
      loopCounter intervalHours fuel i =
        if i < 24 then
          (List.range ((24 - i - 1) / intervalHours + 1)).map
            (fun k => i + k * intervalHours)
        else [] := by
  intro fuel
  induction fuel with
  | zero =>
    intro i hi
    simp only [Nat.zero_mul, Nat.add_zero] at hi
    unfold loopCounter
    rw [if_neg (by omega)]
  | succ fuel ih =>
    intro i hi
    rw [Nat.succ_mul] at hi
    unfold loopCounter
    by_cases h24 : i < 24
    · rw [if_pos h24, if_pos h24]
      rw [ih (i + intervalHours) (by omega)]
      by_cases hnext : i + intervalHours < 24
      · rw [if_pos hnext]
        have hdiv : (24 - i - 1) / intervalHours =
            (24 - (i + intervalHours) - 1) / intervalHours + 1 := by
          have hsplit : 24 - i - 1 = (24 - (i + intervalHours) - 1) + intervalHours := by
            omega
          rw [hsplit, Nat.add_div_right _ hpos]
        conv_rhs => rw [hdiv, range_map_mul_succ]
      · rw [if_neg hnext]
        have hz : (24 - i - 1) / intervalHours = 0 := Nat.div_eq_of_lt (by omega)
        rw [hz, range_map_mul_succ]
        simp
    · rw [if_neg h24, if_neg h24]

/-- C6 counterexample: with a 4-hour interval, sources `[A, B, C]` and `now`
at 02:00 UTC, the schedule's entries are at hours 2, 6, 10, 14, 18, 22 — the
most recent boundary (00:00) is not among them, so the schedule does not
consist of interval boundaries starting from the current boundary. -/
theorem claim6_counterexample :
    validDate ⟨0, 2, 0, 0, 0⟩ ∧
    (getSchedule ["A", "B", "C"] 4 ⟨0, 2, 0, 0, 0⟩).map (fun e => e.1.hour) =
      [2, 6, 10, 14, 18, 22] ∧
    ¬ 0 ∈ (getSchedule ["A", "B", "C"] 4 ⟨0, 2, 0, 0, 0⟩).map (fun e => e.1.hour) := by
  refine ⟨by decide, by decide, by decide⟩

/-- C6 (amended): the schedule has exactly `ceil(24 / intervalHours)`
entries, but entry `k` is at hour `(hourOfDay(now) + k * intervalHours) mod
24` with minutes, seconds and milliseconds zeroed — the walk starts at
`now`'s own hour, not at the most recent interval boundary — rolling the date
one day forward when the hour wraps, and names the source selected by the
index formula at that hour. -/
theorem claim6_schedule (sources : List String) (intervalHours : Nat) (d : DateTime)
    (hs : sources ≠ []) (hpos : 0 < intervalHours) (hv : validDate d) :
    (getSchedule sources intervalHours d).length =
      (24 + intervalHours - 1) / intervalHours ∧
    getSchedule sources intervalHours d =
      (List.range ((24 + intervalHours - 1) / intervalHours)).map
        (fun k =>
          (⟨d.day + (if (d.hour + k * intervalHours) % 24 < d.hour then 1 else 0),
              (d.hour + k * intervalHours) % 24, 0, 0, 0⟩,
            sources.getD
              ((d.hour + k * intervalHours) % 24 / intervalHours % sources.length) "")) := by
  have hcount : (24 + intervalHours - 1) / intervalHours =
      (24 - 0 - 1) / intervalHours + 1 := by
    have h1 : 24 + intervalHours - 1 = (24 - 0 - 1) + intervalHours := by omega
    rw [h1, Nat.add_div_right _ hpos]
  have hloop := loopCounter_eq intervalHours hpos 24 0 (by omega)
  rw [if_pos (by omega)] at hloop
  have h2 : getSchedule sources intervalHours d =
      (List.range ((24 + intervalHours - 1) / intervalHours)).map
        (fun k =>
          (⟨d.day + (if (d.hour + k * intervalHours) % 24 < d.hour then 1 else 0),
              (d.hour + k * intervalHours) % 24, 0, 0, 0⟩,
            sources.getD
              ((d.hour + k * intervalHours) % 24 / intervalHours % sources.length) "")) := by
    unfold getSchedule
    rw [hloop, List.map_map, hcount]
    congr 1
    funext k
    simp only [Function.comp_apply, Nat.zero_add]
    unfold scheduleEntry
    dsimp only
  refine ⟨?_, h2⟩
  rw [h2, List.length_map, List.length_range]

/-- Witness for C6 (amended) at the spec's concrete scenario. -/
theorem claim6_schedule_witness :
    (["A", "B", "C"] : List String) ≠ [] ∧ 0 < 4 ∧ validDate ⟨0, 2, 0, 0, 0⟩ ∧
    ((getSchedule ["A", "B", "C"] 4 ⟨0, 2, 0, 0, 0⟩).length = (24 + 4 - 1) / 4 ∧
      getSchedule ["A", "B", "C"] 4 ⟨0, 2, 0, 0, 0⟩ =
        (List.range ((24 + 4 - 1) / 4)).map
          (fun k =>
            (⟨(0 : Int) + (if (2 + k * 4) % 24 < 2 then 1 else 0),
                (2 + k * 4) % 24, 0, 0, 0⟩,
              (["A", "B", "C"] : List String).getD ((2 + k * 4) % 24 / 4 % 3) ""))) :=
  ⟨by decide, by decide, by decide,
    claim6_schedule ["A", "B", "C"] 4 ⟨0, 2, 0, 0, 0⟩ (by decide) (by decide) (by decide)⟩

end XPoster
